import Mathlib

/-!
Verification development for the waldiez-jupyter server extension.

The Python sources under `waldiez_jupyter/handlers/` are shallowly embedded
below: each handler becomes a pure Lean function over an explicit model of the
request, the filesystem and the network; fallible code returns `Except` or
`Option`.  String and path manipulation is modelled with structurally
recursive primitives over `List Char` so that every definition evaluates
inside the kernel.
-/

namespace Waldiez

/-! ## String and path primitives

POSIX path semantics (separator `/`) as used by `os.path` and `pathlib` in the
sources.  Dot-segment normalisation and symlink resolution performed by
`os.path.abspath` / `Path.resolve` are not modelled: paths are taken as
already-normalised strings. -/

/-- Boolean test that the first list is a prefix of the second. -/
def listPre : List Char → List Char → Bool
  | [], _ => true
  | _ :: _, [] => false
  | a :: as, b :: bs => a == b && listPre as bs

/-- `str.startswith` / `Path` absoluteness test. -/
def strStarts (s p : String) : Bool := listPre p.data s.data

/-- Python `str.endswith` (case-sensitive). -/
def strEnds (s p : String) : Bool := listPre p.data.reverse s.data.reverse

/-- Drop the first `n` characters of a string. -/
def strDrop (s : String) (n : Nat) : String := String.mk (s.data.drop n)

/-- Characters after the last occurrence of `c` (the whole list when `c` is
absent); accumulator-style helper. -/
def lastSegAux (c : Char) : List Char → List Char → List Char
  | acc, [] => acc
  | acc, a :: as => if a == c then lastSegAux c [] as else lastSegAux c (acc ++ [a]) as

/-- Whether a character occurs in the list. -/
def containsChar (c : Char) : List Char → Bool
  | [] => false
  | a :: as => a == c || containsChar c as

/-- `PurePath.name`: the final path component. -/
def pathName (p : String) : String := String.mk (lastSegAux '/' [] p.data)

/-- `PurePath.suffix`: the extension of the final component, empty when the
only dot is leading or trailing (pathlib: the dot position must be strictly
inside the name). -/
def pathSuffix (p : String) : String :=
  let n := (pathName p).data
  if !containsChar '.' n then "" else
  let lastPart := lastSegAux '.' [] n
  if lastPart.isEmpty then "" else
  if n.length ≤ lastPart.length + 1 then "" else String.mk ('.' :: lastPart)

/-- `PurePath.with_suffix`: strip the current suffix and append `ext`. -/
def withSuffix (p ext : String) : String :=
  let k := (pathSuffix p).data.length
  String.mk (p.data.take (p.data.length - k)) ++ ext

/-- Replace every occurrence of `pat` (non-empty) by `rep`, fuelled by the
input length; helper for `strReplace`. -/
def replaceAllAux (pat rep : List Char) : Nat → List Char → List Char
  | _, [] => []
  | 0, s => s
  | fuel + 1, a :: as =>
    if !pat.isEmpty && listPre pat (a :: as)
    then rep ++ replaceAllAux pat rep fuel (List.drop (pat.length - 1) as)
    else a :: replaceAllAux pat rep fuel as

/-- Python `str.replace` for a non-empty pattern (all occurrences). -/
def strReplace (s pat rep : String) : String :=
  String.mk (replaceAllAux pat.data rep.data s.data.length s.data)

/-- `os.path.join` for two components: an absolute second component discards
the first; otherwise a single separator is inserted when needed. -/
def joinPath (a b : String) : String :=
  if strStarts b "/" then b
  else if a == "" || strEnds a "/" then a ++ b
  else a ++ "/" ++ b

/-- `os.path.abspath` / `Path.resolve` relative to the process working
directory `cwd` (without dot-segment normalisation). -/
def absPath (cwd p : String) : String := joinPath cwd p

/-- Python truthiness of an optional string (`None` and `""` are falsy). -/
def truthy : Option String → Bool
  | none => false
  | some s => !(s == "")

end Waldiez

namespace Waldiez

/-! ## upload_handler.py -/

/-- `ALLOWED_EXTENSIONS` from `upload_handler.py` (a Python set literal,
modelled as a list in source order). -/
def ALLOWED_EXTENSIONS : List String :=
  [".txt", ".pdf", ".doc", ".docx", ".rtf", ".xlsx", ".xls", ".csv",
   ".json", ".yaml", ".yml", ".xml", ".md", ".odt"]

/-- `is_allowed_extension`: `any(filename.endswith(e) for e in ALLOWED_EXTENSIONS)`. -/
def is_allowed_extension (filename : String) : Bool :=
  ALLOWED_EXTENSIONS.any (fun e => strEnds filename e)

/-- Response of the upload handler: the JSON `{"path": p}` success body or an
`HTTPError(code, reason)`. -/
inductive UploadResp
  | pathJson (p : String)
  | httpErr (code : Nat) (reason : String)
deriving DecidableEq, Repr

/-- `UploadHandler._get_file_path`: `abspath(join(root_dir, file_name))`. -/
def uploadFilePath (cwd root fileName : String) : String :=
  absPath cwd (joinPath root fileName)

/-- `UploadHandler.post`.  `fileInfo` is the first entry of
`request.files["file"]` (filename and opaque body), absent when the request
carries no file part; `sanitize` is the external
`pathvalidate.sanitize_filename`, kept abstract; the filesystem is the list of
saved `(path, body)` entries, a successful save prepending a new entry. -/
def uploadPost (cwd root : String) (sanitize : String → String)
    (fileInfo : Option (String × Nat)) (fs : List (String × Nat)) :
    UploadResp × List (String × Nat) :=
  match fileInfo with
  | none => (.httpErr 400 "No file in request", fs)
  | some (rawName, body) =>
    let filename := sanitize rawName
    if !is_allowed_extension filename
    then (.httpErr 400 "File extension not allowed", fs)
    else
      let fp := uploadFilePath cwd root filename
      (.pathJson fp, (fp, body) :: fs)

end Waldiez

namespace Waldiez

/-! ## Theorems: claims C6 and C9 -/

/-- C9: the upload extension check is a case-sensitive suffix test:
`is_allowed_extension f` is true iff `f` ends with one of the fourteen
allow-listed suffixes; hence `"notes.TXT"` is rejected and the bare `".txt"`
is accepted. -/
theorem is_allowed_extension_spec :
    (∀ f : String,
      is_allowed_extension f = true ↔ ∃ e ∈ ALLOWED_EXTENSIONS, strEnds f e = true)
    ∧ is_allowed_extension "notes.TXT" = false
    ∧ is_allowed_extension ".txt" = true
    ∧ ALLOWED_EXTENSIONS.length = 14 := by
  refine ⟨fun f => ?_, by decide, by decide, by decide⟩
  simp [is_allowed_extension, List.any_eq_true]

/-- C6: `POST /upload` with no file part answers 400; with a file whose
sanitized name has a disallowed extension answers 400 and saves nothing; with
an allowed extension persists the body at `abspath(join(root, sanitized))`
and answers 200 with that path. -/
theorem upload_post_spec (cwd root : String) (sanitize : String → String)
    (rawName : String) (body : Nat) (fs : List (String × Nat)) :
    uploadPost cwd root sanitize none fs = (.httpErr 400 "No file in request", fs)
    ∧ (is_allowed_extension (sanitize rawName) = false →
        uploadPost cwd root sanitize (some (rawName, body)) fs =
          (.httpErr 400 "File extension not allowed", fs))
    ∧ (is_allowed_extension (sanitize rawName) = true →
        uploadPost cwd root sanitize (some (rawName, body)) fs =
          (.pathJson (uploadFilePath cwd root (sanitize rawName)),
            (uploadFilePath cwd root (sanitize rawName), body) :: fs)) := by
  refine ⟨rfl, fun h => ?_, fun h => ?_⟩
  · simp [uploadPost, h]
  · simp [uploadPost, h]

/-- Witness for `upload_post_spec` at concrete inputs: a `.png` upload is
rejected with the filesystem untouched, a `.txt` upload is saved under the
server root. -/
theorem upload_post_spec_witness :
    uploadPost "/srv" "/srv/root" id (some ("a.png", 7)) [] =
      (.httpErr 400 "File extension not allowed", [])
    ∧ uploadPost "/srv" "/srv/root" id (some ("a.txt", 7)) [] =
      (.pathJson "/srv/root/a.txt", [("/srv/root/a.txt", 7)]) := by
  have h := upload_post_spec "/srv" "/srv/root" id "a.png" 7 []
  have h2 := upload_post_spec "/srv" "/srv/root" id "a.txt" 7 []
  refine ⟨h.2.1 (by decide), ?_⟩
  have h3 := h2.2.2 (by decide)
  simpa [uploadFilePath, absPath, joinPath, strStarts, strEnds, listPre] using h3

end Waldiez

namespace Waldiez

/-! ## files_handler.py — GET -/

/-- A GET request to `/files`: the multiset of query arguments in order
(`request.arguments`). -/
structure GetReq where
  args : List (String × String)
deriving DecidableEq, Repr

/-- Tornado `get_query_argument(name, None)`: the last value supplied for
`name`, or `none`. -/
def getArg (req : GetReq) (name : String) : Option String :=
  ((req.args.filter (fun kv => kv.1 == name)).getLast?).map (fun kv => kv.2)

/-- Response of `FilesHandler.get`: the JSON `{"path": p}` body, the streamed
bytes of an image file (identified by its resolved path), or an
`HTTPError(code, reason)`. -/
inductive GetResp
  | pathJson (p : String)
  | imageBytes (p : String)
  | httpErr (code : Nat) (reason : String)
deriving DecidableEq, Repr

/-- `FilesHandler._get_file_path`: try the argument as given (relative paths
read against the process working directory `cwd`), then joined with the
contents manager root; `none` models the `FileNotFoundError`.  `isFile` is
the filesystem's `os.path.exists(_) and os.path.isfile(_)` on absolute
paths. -/
def getFilePath (isFile : String → Bool) (cwd root file : String) : Option String :=
  if isFile (absPath cwd file) then some (absPath cwd file)
  else
    let joined := joinPath root file
    if isFile (absPath cwd joined) then some (absPath cwd joined) else none

/-- `FilesHandler.get`: 400 without arguments; a truthy `view` argument
streams the resolved image (404 when unresolved); otherwise a truthy `path`
argument answers `{"path": p}` (404 when unresolved); 400 when `path` is
missing or empty. -/
def filesGet (isFile : String → Bool) (cwd root : String) (req : GetReq) : GetResp :=
  if req.args.isEmpty then .httpErr 400 "No args in request" else
  let viewArg := getArg req "view"
  if truthy viewArg then
    match getFilePath isFile cwd root (viewArg.getD "") with
    | some fp => .imageBytes fp
    | none => .httpErr 404 ("File not found: " ++ viewArg.getD "")
  else
    let pathArg := getArg req "path"
    if truthy pathArg then
      match getFilePath isFile cwd root (pathArg.getD "") with
      | some fp => .pathJson fp
      | none => .httpErr 404 ("File not found: " ++ pathArg.getD "")
    else .httpErr 400 "No path in request"

end Waldiez

namespace Waldiez

/-! ## Lemmas about GET request resolution -/

/-- A query argument that is present forces `request.arguments` nonempty. -/
theorem getArg_some_nonempty {req : GetReq} {n v : String}
    (h : getArg req n = some v) : req.args.isEmpty = false := by
  cases ha : req.args with
  | nil => rw [getArg, ha] at h; simp [List.filter] at h
  | cons x xs => simp [List.isEmpty]

/-- Appending keeps a leading slash. -/
theorem strStarts_slash_append (a b : String) (h : strStarts a "/" = true) :
    strStarts (a ++ b) "/" = true := by
  rcases a with ⟨d⟩
  rcases b with ⟨e⟩
  show listPre "/".data (d ++ e) = true
  have h' : listPre "/".data d = true := h
  have hdata : "/".data = ['/'] := rfl
  rw [hdata] at h' ⊢
  cases d with
  | nil => simp [listPre] at h'
  | cons c cs =>
    simp only [List.cons_append]
    simp [listPre] at h' ⊢
    exact h'

/-- `os.path.join` with an absolute first component yields an absolute path. -/
theorem strStarts_joinPath_slash (a b : String) (h : strStarts a "/" = true) :
    strStarts (joinPath a b) "/" = true := by
  unfold joinPath
  split
  · assumption
  · split
    · exact strStarts_slash_append a b h
    · exact strStarts_slash_append (a ++ "/") b (strStarts_slash_append a "/" h)

end Waldiez

namespace Waldiez

/-! ## Theorems: claims C3 and C5 -/

/-- C3 counterexample: (1) a request carrying both a truthy `view` argument
and a `path` argument naming an existing file is answered with the image
bytes, not the `{"path"}` JSON the claim requires; (2) when the process
working directory differs from the server root, a relative `path` existing in
both places resolves to the working-directory copy, whose absolute path does
not lie under the server root. -/
theorem files_get_view_overrides_path_cex :
    filesGet (fun s => s == "/root/img.png" || s == "/root/f.waldiez")
        "/root" "/root" ⟨[("view", "img.png"), ("path", "f.waldiez")]⟩ =
      .imageBytes "/root/img.png"
    ∧ filesGet (fun s => s == "/root/img.png" || s == "/root/f.waldiez")
        "/root" "/root" ⟨[("view", "img.png"), ("path", "f.waldiez")]⟩ ≠
      .pathJson "/root/f.waldiez"
    ∧ filesGet (fun s => s == "/cwd/a.txt" || s == "/root2/a.txt")
        "/cwd" "/root2" ⟨[("path", "a.txt")]⟩ = .pathJson "/cwd/a.txt"
    ∧ strStarts "/cwd/a.txt" "/root2" = false := by
  refine ⟨by decide, by decide, by decide, by decide⟩

/-- C3 (amended): for a GET `/files` request with no truthy `view` argument
and a non-empty `path` argument, the handler resolves the argument first as
given against the process working directory and then joined with the server
root, and answers 200 with `{"path": p}` for the absolute path of the
resolved existing file. -/
theorem files_get_path_resolves (isFile : String → Bool) (cwd root : String)
    (req : GetReq) (p : String)
    (hview : truthy (getArg req "view") = false)
    (hpath : getArg req "path" = some p) (hp : p ≠ "")
    (hcwd : strStarts cwd "/" = true) :
    (isFile (absPath cwd p) = true →
      filesGet isFile cwd root req = .pathJson (absPath cwd p)
      ∧ strStarts (absPath cwd p) "/" = true
      ∧ isFile (absPath cwd p) = true)
    ∧ (isFile (absPath cwd p) = false →
       isFile (absPath cwd (joinPath root p)) = true →
      filesGet isFile cwd root req = .pathJson (absPath cwd (joinPath root p))
      ∧ strStarts (absPath cwd (joinPath root p)) "/" = true
      ∧ isFile (absPath cwd (joinPath root p)) = true) := by
  have hne : req.args.isEmpty = false := getArg_some_nonempty hpath
  have hpt : truthy (getArg req "path") = true := by
    rw [hpath]; simp [truthy, hp]
  have htp : truthy (some p) = true := by simp [truthy, hp]
  constructor
  · intro hraw
    refine ⟨?_, strStarts_joinPath_slash cwd p hcwd, hraw⟩
    simp [filesGet, hne, hview, hpt, htp, hpath, getFilePath, hraw]
  · intro hraw hjoin
    refine ⟨?_, strStarts_joinPath_slash cwd (joinPath root p) hcwd, hjoin⟩
    simp [filesGet, hne, hview, hpt, htp, hpath, getFilePath, hraw, hjoin]

/-- Witness for `files_get_path_resolves`: a file existing under the server
root (equal to the working directory) is answered with its absolute path. -/
theorem files_get_path_resolves_witness :
    filesGet (fun s => s == "/root/f.waldiez") "/root" "/root"
        ⟨[("path", "f.waldiez")]⟩ = .pathJson "/root/f.waldiez"
    ∧ strStarts "/root/f.waldiez" "/" = true := by
  have h := (files_get_path_resolves (fun s => s == "/root/f.waldiez") "/root"
      "/root" ⟨[("path", "f.waldiez")]⟩ "f.waldiez" (by decide) (by decide)
      (by decide) (by decide)).1 (by decide)
  exact ⟨h.1, h.2.1⟩

/-- C5 counterexample: a request whose `path` argument names a nonexistent
file but which also carries a truthy `view` argument naming an existing image
is answered with the image bytes, not 404. -/
theorem files_get_view_with_bad_path_cex :
    filesGet (fun s => s == "/r/img2.png") "/r" "/r"
        ⟨[("view", "img2.png"), ("path", "missing.waldiez")]⟩ =
      .imageBytes "/r/img2.png"
    ∧ filesGet (fun s => s == "/r/img2.png") "/r" "/r"
        ⟨[("view", "img2.png"), ("path", "missing.waldiez")]⟩ ≠
      .httpErr 404 ("File not found: " ++ "missing.waldiez") := by
  refine ⟨by decide, by decide⟩

/-- C5 (amended): a GET `/files` request carrying neither a (truthy) `path`
nor a (truthy) `view` argument is answered 400, and a request with no truthy
`view` argument whose non-empty `path` argument resolves to no existing file
(neither as given nor joined with the server root) is answered 404. -/
theorem files_get_errors (isFile : String → Bool) (cwd root : String)
    (req : GetReq) :
    (req.args.isEmpty = true →
      filesGet isFile cwd root req = .httpErr 400 "No args in request")
    ∧ (req.args.isEmpty = false → truthy (getArg req "view") = false →
       truthy (getArg req "path") = false →
      filesGet isFile cwd root req = .httpErr 400 "No path in request")
    ∧ (∀ p : String, truthy (getArg req "view") = false →
       getArg req "path" = some p → p ≠ "" →
       isFile (absPath cwd p) = false →
       isFile (absPath cwd (joinPath root p)) = false →
      filesGet isFile cwd root req = .httpErr 404 ("File not found: " ++ p)) := by
  refine ⟨fun h => ?_, fun h hv hp => ?_, fun p hv hp hne hraw hjoin => ?_⟩
  · simp [filesGet, h]
  · simp [filesGet, h, hv, hp]
  · have hargs : req.args.isEmpty = false := getArg_some_nonempty hp
    have hpt : truthy (getArg req "path") = true := by
      rw [hp]; simp [truthy, hne]
    have htp : truthy (some p) = true := by simp [truthy, hne]
    simp [filesGet, hargs, hv, hpt, htp, hp, getFilePath, hraw, hjoin]

/-- Witness for `files_get_errors`: a request with an unrelated argument only
is answered 400; a request naming a nonexistent path is answered 404. -/
theorem files_get_errors_witness :
    filesGet (fun _ => false) "/r" "/r" ⟨[("x", "1")]⟩ =
      .httpErr 400 "No path in request"
    ∧ filesGet (fun _ => false) "/r" "/r" ⟨[("path", "nope.waldiez")]⟩ =
      .httpErr 404 ("File not found: " ++ "nope.waldiez") := by
  refine ⟨(files_get_errors (fun _ => false) "/r" "/r" ⟨[("x", "1")]⟩).2.1
      (by decide) (by decide) (by decide), ?_⟩
  exact (files_get_errors (fun _ => false) "/r" "/r"
      ⟨[("path", "nope.waldiez")]⟩).2.2 "nope.waldiez" (by decide) (by decide)
      (by decide) (by decide) (by decide)

end Waldiez

namespace Waldiez

/-! ## files_handler.py — POST -/

/-- JSON values as far as `FilesHandler.post` inspects them. -/
inductive JVal
  | jstr (s : String)
  | jnum (n : Int)
  | jbool (b : Bool)
  | jnull
  | jlist (l : List JVal)
deriving Repr

/-- Environment of the POST handler: the filesystem predicate (absolute
paths), the external `WaldiezExporter` (kept abstract: whether `load`
succeeds for a resolved path and whether `export` succeeds for a target
path), the process working directory and the contents manager root. -/
structure ExpEnv where
  isFile : String → Bool
  loadOk : String → Bool
  exportOk : String → Bool
  cwd : String
  root : String

/-- One interaction with the external exporter library. -/
inductive ExpEvent
  | load (p : String)
  | exportTo (p : String)
deriving DecidableEq, Repr

/-- Response of `FilesHandler.post`: the JSON `{"files": [...]}` body or an
`HTTPError(code, reason)`. -/
inductive PostResp
  | filesJson (files : List String)
  | httpErr (code : Nat) (reason : String)
deriving DecidableEq, Repr

/-- `dict.get` on the decoded JSON body. -/
def lookupJ (d : List (String × JVal)) (k : String) : Option JVal :=
  (d.find? (fun kv => kv.1 == k)).map (fun kv => kv.2)

/-- `FilesHandler._relative_to_cwd`: delete every occurrence of the resolved
working directory, then strip one leading separator. -/
def relativeToCwd (cwd p : String) : String :=
  let s := strReplace p cwd ""
  if strStarts s "/" then strDrop s 1 else s

/-- `FilesHandler._to_py` / `_to_ipynb` (identical bodies): run the export,
answer the empty string on failure and the cwd-relative path on success; the
export attempt itself is recorded. -/
def toPyOrIpynb (env : ExpEnv) (fp : String) : String × List ExpEvent :=
  if env.exportOk fp then (relativeToCwd env.cwd fp, [.exportTo fp])
  else ("", [.exportTo fp])

/-- `FilesHandler._export_file`: resolve, load via the external exporter
(empty string on failure), then dispatch on the target extension with the
suffix replaced. -/
def exportFile (env : ExpEnv) (file ext : String) : String × List ExpEvent :=
  let fp := absPath env.cwd file
  if !env.loadOk fp then ("", [.load fp])
  else if ext == "py" then
    let t := withSuffix fp ".py"
    let r := toPyOrIpynb env t
    (r.1, .load fp :: r.2)
  else if ext == "ipynb" then
    let t := withSuffix fp ".ipynb"
    let r := toPyOrIpynb env t
    (r.1, .load fp :: r.2)
  else ("", [.load fp])

/-- `FilesHandler._handle_export`: skip entries that are not existing
`.waldiez` files, collect non-empty conversion results.  (The source's final
`if not file_paths: return []` returns the same empty list and is implicit.) -/
def handleExport (env : ExpEnv) : List String → String → List String × List ExpEvent
  | [], _ => ([], [])
  | f :: rest, ext =>
    let fp := absPath env.cwd f
    let tailr := handleExport env rest ext
    if env.isFile fp && (pathSuffix fp == ".waldiez") then
      let r := exportFile env f ext
      (if r.1 == "" then tailr.1 else r.1 :: tailr.1, r.2 ++ tailr.2)
    else tailr

/-- `FilesHandler._get_file_path` under the POST environment. -/
def postFilePath (env : ExpEnv) (file : String) : Option String :=
  getFilePath env.isFile env.cwd env.root file

/-- `FilesHandler._get_file_paths`: keep `.waldiez`-suffixed entries that
resolve, as absolute path strings; per-file resolution errors are skipped. -/
def getFilePaths (env : ExpEnv) (files : List String) : List String :=
  files.filterMap (fun f =>
    if strEnds f ".waldiez" then postFilePath env f else none)

/-- The membership test `target_extension not in ("py", "ipynb")` (negated):
the `extension` value of the body, defaulting to `""`, equals one of the two
admissible strings (a non-string JSON value equals neither). -/
def extensionAccepted (d : List (String × JVal)) : Bool :=
  match (lookupJ d "extension").getD (.jstr "") with
  | .jstr s => s == "py" || s == "ipynb"
  | _ => false

/-- The `extension` value of the body as a string (only consulted once
`extensionAccepted` holds, hence necessarily a string). -/
def extValue (d : List (String × JVal)) : String :=
  match (lookupJ d "extension").getD (.jstr "") with
  | .jstr s => s
  | _ => ""

/-- `FilesHandler._gather_post_data`: 400 on a missing or empty body, 400 on
an extension other than the strings `"py"`/`"ipynb"`, 400 on a missing,
non-list or empty `files` value; non-string list entries are dropped, the
rest resolved. -/
def gatherPostData (env : ExpEnv) (body : Option (List (String × JVal))) :
    Except (Nat × String) (List String × String) :=
  match body with
  | none => .error (400, "No data in request")
  | some d =>
    if d.isEmpty then .error (400, "No data in request") else
    if !extensionAccepted d then .error (400, "Invalid extension") else
    match (lookupJ d "files").getD (.jlist []) with
    | .jlist l =>
      if l.isEmpty then .error (400, "No files in request") else
      let strs := l.filterMap (fun v =>
        match v with
        | .jstr s => some s
        | _ => none)
      .ok (getFilePaths env strs, extValue d)
    | _ => .error (400, "No files in request")

/-- `FilesHandler.post`: gather and validate, 400 when no listed file
survives validation, otherwise export the batch and answer
`{"files": results}`. -/
def postFiles (env : ExpEnv) (body : Option (List (String × JVal))) :
    PostResp × List ExpEvent :=
  match gatherPostData env body with
  | .error e => (.httpErr e.1 e.2, [])
  | .ok (files, ext) =>
    if files.isEmpty then (.httpErr 400 "No valid files in the request", [])
    else
      let r := handleExport env files ext
      (.filesJson r.1, r.2)

/-- Specification-side description of one file's fate in the batch export:
`some r` exactly when the entry is an existing `.waldiez` file whose load and
export both succeed and whose cwd-relative target path is non-empty. -/
def exportedPath (env : ExpEnv) (ext f : String) : Option String :=
  let fp := absPath env.cwd f
  let target := withSuffix fp ("." ++ ext)
  let rel := relativeToCwd env.cwd target
  if env.isFile fp && (pathSuffix fp == ".waldiez") && env.loadOk fp
      && env.exportOk target && !(rel == "")
  then some rel else none

end Waldiez

namespace Waldiez

/-! ## Lemmas about the batch export -/

/-- Every call into `_export_file` attempts the load of its resolved path. -/
theorem exportFile_load_mem (env : ExpEnv) (f ext : String) :
    ExpEvent.load (absPath env.cwd f) ∈ (exportFile env f ext).2 := by
  unfold exportFile
  by_cases h : env.loadOk (absPath env.cwd f)
  · simp only [exportFile, h]
    split_ifs <;> simp [toPyOrIpynb]
  · simp [h]

/-- The list of exported paths produced by `_handle_export` is exactly the
per-file specification `exportedPath` mapped over the batch. -/
theorem handleExport_fst_eq (env : ExpEnv) (ext : String)
    (hext : ext = "py" ∨ ext = "ipynb") (files : List String) :
    (handleExport env files ext).1 = files.filterMap (exportedPath env ext) := by
  induction files with
  | nil => rfl
  | cons f rest ih =>
    simp only [handleExport, List.filterMap_cons]
    by_cases h1 : (env.isFile (absPath env.cwd f)
        && (pathSuffix (absPath env.cwd f) == ".waldiez")) = true
    · by_cases h2 : env.loadOk (absPath env.cwd f) = true
      · rcases hext with he | he <;> subst he
        · by_cases h3 : env.exportOk (withSuffix (absPath env.cwd f) ".py") = true
          · by_cases h4 :
                (relativeToCwd env.cwd (withSuffix (absPath env.cwd f) ".py") == "") = true
            · simp [h1, exportFile, h2, toPyOrIpynb, h3, h4, exportedPath, ih]
            · simp [h1, exportFile, h2, toPyOrIpynb, h3, h4, exportedPath, ih]
          · simp [h1, exportFile, h2, toPyOrIpynb, h3, exportedPath, ih]
        · by_cases h3 : env.exportOk (withSuffix (absPath env.cwd f) ".ipynb") = true
          · by_cases h4 :
                (relativeToCwd env.cwd (withSuffix (absPath env.cwd f) ".ipynb") == "") = true
            · simp [h1, exportFile, h2, toPyOrIpynb, h3, h4, exportedPath, ih]
            · simp [h1, exportFile, h2, toPyOrIpynb, h3, h4, exportedPath, ih]
          · simp [h1, exportFile, h2, toPyOrIpynb, h3, exportedPath, ih]
      · simp [h1, exportFile, h2, exportedPath, ih]
    · simp [h1, exportedPath, ih]

/-- `_handle_export` attempts every existing `.waldiez` entry of the batch,
whatever happens to the other entries. -/
theorem handleExport_processes (env : ExpEnv) (ext : String) (files : List String)
    (f : String) (hf : f ∈ files)
    (hfile : env.isFile (absPath env.cwd f) = true)
    (hsfx : (pathSuffix (absPath env.cwd f) == ".waldiez") = true) :
    ExpEvent.load (absPath env.cwd f) ∈ (handleExport env files ext).2 := by
  induction files with
  | nil => cases hf
  | cons g rest ih =>
    simp only [handleExport]
    rcases List.mem_cons.mp hf with he | hm
    · subst he
      simp [hfile, hsfx]
      exact Or.inl (exportFile_load_mem env f ext)
    · by_cases h1 : (env.isFile (absPath env.cwd g)
          && (pathSuffix (absPath env.cwd g) == ".waldiez")) = true
      · simp [h1]
        exact Or.inr (ih hm)
      · simp [h1]
        exact ih hm

/-- When the extension test passes, the reported value is one of the two
admissible strings. -/
theorem extensionAccepted_value (d : List (String × JVal))
    (h : extensionAccepted d = true) :
    extValue d = "py" ∨ extValue d = "ipynb" := by
  unfold extensionAccepted at h
  unfold extValue
  rcases hv : (lookupJ d "extension").getD (.jstr "") with s | n | b | _ | l <;>
    · rw [hv] at h
      simp at h ⊢
      try exact h

/-- A successful `_gather_post_data` only ever reports the extension strings
`"py"` or `"ipynb"`. -/
theorem gather_ext (env : ExpEnv) (body : Option (List (String × JVal)))
    (files : List String) (ext : String)
    (hg : gatherPostData env body = .ok (files, ext)) :
    ext = "py" ∨ ext = "ipynb" := by
  unfold gatherPostData at hg
  cases body with
  | none => cases hg
  | some d =>
    by_cases hd : d.isEmpty = true
    · simp [hd] at hg
    · by_cases ha : extensionAccepted d = true
      · simp only [hd, Bool.false_eq_true, if_false, ha, Bool.not_true] at hg
        split at hg
        · split at hg
          · cases hg
          · cases hg
            exact extensionAccepted_value d ha
        · cases hg
      · simp [hd, ha] at hg

end Waldiez

namespace Waldiez

/-! ## Theorems: claims C4, C7 and C8 -/

/-- C7: a POST `/files` body whose `extension` value is not exactly the
string `"py"` or `"ipynb"` (a missing field defaults to `""`) is answered 400
with no call into the exporter. -/
theorem files_post_invalid_extension (env : ExpEnv) (d : List (String × JVal))
    (h : extensionAccepted d = false) :
    postFiles env (some d) =
      (.httpErr 400 (if d.isEmpty then "No data in request" else "Invalid extension"),
        []) := by
  by_cases hd : d.isEmpty = true
  · simp [postFiles, gatherPostData, hd]
  · simp [postFiles, gatherPostData, hd, h]

/-- Witness for `files_post_invalid_extension`: a body requesting extension
`"txt"` is rejected 400 with no export interaction. -/
theorem files_post_invalid_extension_witness :
    postFiles ⟨fun _ => true, fun _ => true, fun _ => true, "/cwd", "/root"⟩
        (some [("files", .jlist [.jstr "a.waldiez"]), ("extension", .jstr "txt")]) =
      (.httpErr 400 "Invalid extension", []) := by
  have h := files_post_invalid_extension
      ⟨fun _ => true, fun _ => true, fun _ => true, "/cwd", "/root"⟩
      [("files", .jlist [.jstr "a.waldiez"]), ("extension", .jstr "txt")] (by rfl)
  simpa using h

/-- C4 counterexample: a body that is valid in the claim's sense (non-empty
`files` list, extension `"py"`) but whose single listed `.waldiez` file does
not exist is answered 400, not 200 with an empty list. -/
theorem files_post_no_valid_files_cex :
    postFiles ⟨fun _ => false, fun _ => true, fun _ => true, "/cwd", "/root"⟩
        (some [("files", .jlist [.jstr "a.waldiez"]), ("extension", .jstr "py")]) =
      (.httpErr 400 "No valid files in the request", []) := by
  rfl

/-- C4 (amended): for a POST `/files` body that passes validation (at least
one listed file resolves to an existing `.waldiez` file), the response is 200
with exactly the per-file outcomes `exportedPath`: a file whose load or
export fails contributes nothing, the others their cwd-relative exported
path; and every existing resolved `.waldiez` entry is attempted regardless of
the other entries' outcomes. -/
theorem files_post_partial_success (env : ExpEnv)
    (body : Option (List (String × JVal))) (files : List String) (ext : String)
    (hg : gatherPostData env body = .ok (files, ext)) (hne : files ≠ []) :
    (postFiles env body).1 = .filesJson (files.filterMap (exportedPath env ext))
    ∧ ∀ f ∈ files, env.isFile (absPath env.cwd f) = true →
        (pathSuffix (absPath env.cwd f) == ".waldiez") = true →
        ExpEvent.load (absPath env.cwd f) ∈ (postFiles env body).2 := by
  have hext := gather_ext env body files ext hg
  have hfe : files.isEmpty = false := by
    cases files with
    | nil => exact absurd rfl hne
    | cons a l => rfl
  constructor
  · simp [postFiles, hg, hfe, handleExport_fst_eq env ext hext files]
  · intro f hf hfile hsfx
    simp only [postFiles, hg, hfe, Bool.false_eq_true, if_false]
    exact handleExport_processes env ext files f hf hfile hsfx

/-- Witness for `files_post_partial_success`: of two existing `.waldiez`
files, one loads and exports while the other fails to load; the response
lists only the successful cwd-relative path, and both were attempted. -/
theorem files_post_partial_success_witness :
    (postFiles
        ⟨fun s => s == "/cwd/a.waldiez" || s == "/cwd/b.waldiez",
         fun s => s == "/cwd/a.waldiez", fun s => s == "/cwd/a.py",
         "/cwd", "/cwd"⟩
        (some [("files", .jlist [.jstr "a.waldiez", .jstr "b.waldiez"]),
               ("extension", .jstr "py")])).1 =
      .filesJson ["a.py"]
    ∧ ExpEvent.load "/cwd/b.waldiez" ∈
      (postFiles
        ⟨fun s => s == "/cwd/a.waldiez" || s == "/cwd/b.waldiez",
         fun s => s == "/cwd/a.waldiez", fun s => s == "/cwd/a.py",
         "/cwd", "/cwd"⟩
        (some [("files", .jlist [.jstr "a.waldiez", .jstr "b.waldiez"]),
               ("extension", .jstr "py")])).2 := by
  have h := files_post_partial_success
      ⟨fun s => s == "/cwd/a.waldiez" || s == "/cwd/b.waldiez",
       fun s => s == "/cwd/a.waldiez", fun s => s == "/cwd/a.py",
       "/cwd", "/cwd"⟩
      (some [("files", .jlist [.jstr "a.waldiez", .jstr "b.waldiez"]),
             ("extension", .jstr "py")])
      ["/cwd/a.waldiez", "/cwd/b.waldiez"] "py" (by rfl) (by simp)
  constructor
  · rw [h.1]; rfl
  · exact h.2 "/cwd/b.waldiez" (by simp) (by rfl) (by rfl)

/-- C8: when a POST `/files` batch passes validation but the load or export
of every validated file fails, the handler still answers 200 with an empty
`files` list. -/
theorem files_post_all_fail_empty (env : ExpEnv)
    (body : Option (List (String × JVal))) (files : List String) (ext : String)
    (hg : gatherPostData env body = .ok (files, ext)) (hne : files ≠ [])
    (hfail : ∀ f ∈ files,
      env.loadOk (absPath env.cwd f) = false
      ∨ env.exportOk (withSuffix (absPath env.cwd f) ("." ++ ext)) = false) :
    (postFiles env body).1 = .filesJson [] := by
  have hext := gather_ext env body files ext hg
  have hfe : files.isEmpty = false := by
    cases files with
    | nil => exact absurd rfl hne
    | cons a l => rfl
  have hmap : files.filterMap (exportedPath env ext) = [] := by
    rw [List.filterMap_eq_nil_iff]
    intro f hf
    rcases hfail f hf with hl | he
    · simp [exportedPath, hl]
    · simp [exportedPath, he]
  simp [postFiles, hg, hfe, handleExport_fst_eq env ext hext files, hmap]

/-- Witness for `files_post_all_fail_empty`: a single existing `.waldiez`
file whose load fails yields 200 with an empty list. -/
theorem files_post_all_fail_empty_witness :
    (postFiles
        ⟨fun s => s == "/cwd/a.waldiez", fun _ => false, fun _ => false,
         "/cwd", "/cwd"⟩
        (some [("files", .jlist [.jstr "a.waldiez"]),
               ("extension", .jstr "py")])).1 = .filesJson [] := by
  exact files_post_all_fail_empty
      ⟨fun s => s == "/cwd/a.waldiez", fun _ => false, fun _ => false,
       "/cwd", "/cwd"⟩
      (some [("files", .jlist [.jstr "a.waldiez"]), ("extension", .jstr "py")])
      ["/cwd/a.waldiez"] "py" (by rfl) (by simp)
      (fun f _ => Or.inl rfl)

end Waldiez

namespace Waldiez

/-! ## extra_static_files.py

The filesystem below the static root is modelled by the state of the served
`vs/` directory (whether `loader.js` is present, plus an opaque identifier
for its remaining content), the served `min-maps/` directory and the
`monaco_details.json` cache file.  The network is an oracle: the registry
response (or unreachability) and the downloaded tarball (its SHA-1 content
hash and relevant archive members) are part of the environment.  Timestamps
are seconds, `timedelta(days=1)` being 86400. -/

/-- Content of a served directory subtree: whether `loader.js` is among the
files, plus an opaque identifier for the rest. -/
structure VsContent where
  hasLoader : Bool
  rest : Nat
deriving DecidableEq, Repr

/-- The `dist` object of one registry version entry. -/
structure Dist where
  tarball : String
  shasum : String
deriving DecidableEq, Repr

/-- A decoded registry response: the `dist-tags.latest` value and the
`versions` dictionary. -/
structure RegistryData where
  latest : String
  versions : List (String × Dist)
deriving Repr

/-- A downloaded tarball: the SHA-1 hash of its bytes, the content of its
`package/min/vs` member when present, and its `package/min-maps` member. -/
structure Tarball where
  shaSum : String
  pkgMinVs : Option VsContent
  minMaps : Option Nat
deriving DecidableEq, Repr

/-- The parsed fields of `monaco_details.json`; `lastCheck = none` models a
`last_check` value `datetime.fromisoformat` rejects, the other fields are
absent keys as `none` (with `""` equally falsy). -/
structure DetailsData where
  lastCheck : Option Int
  version : Option String
  url : Option String
  shaSum : Option String
deriving DecidableEq, Repr

/-- The `monaco_details.json` file on disk: either content `json.load`
rejects, or a parsed record. -/
inductive DetailsFile
  | unparsable
  | parsed (d : DetailsData)
deriving DecidableEq, Repr

/-- The static-root filesystem state. -/
structure MonacoFs where
  vs : Option VsContent
  minMaps : Option Nat
  details : Option DetailsFile
deriving DecidableEq, Repr

/-- The environment of one provisioning run: current UTC time, the registry
response (`none`: unreachable or undecodable) and the downloaded tarball
(`none`: the download request or the tarfile open fails). -/
structure MonacoEnv where
  now : Int
  registry : Option RegistryData
  download : Option Tarball

/-- One network request issued during a run. -/
inductive NetEvent
  | registryFetch
  | tarballDownload
deriving DecidableEq, Repr

/-- `PINNED_VERSION` from the source. -/
def PINNED_VERSION : Option String := some "0.55.1"

/-- `timedelta(days=1)` in seconds. -/
def oneDay : Int := 86400

/-- Python truthiness of `PINNED_VERSION`. -/
def pinnedTruthy : Bool :=
  match PINNED_VERSION with
  | none => false
  | some s => !(s == "")

/-- Whether `static_root/vs/loader.js` exists. -/
def loaderExists (fs : MonacoFs) : Bool :=
  match fs.vs with
  | some c => c.hasLoader
  | none => false

/-- `_remove_loader_js`: unlink `vs/loader.js` when present. -/
def removeLoaderJs (fs : MonacoFs) : MonacoFs :=
  match fs.vs with
  | some c => { fs with vs := some { c with hasLoader := false } }
  | none => fs

/-- `_get_cached_details`: reject (removing `loader.js`) when the cache file
is missing or unparsable, its `last_check` does not parse, a field is falsy,
or the record is a day or older; a fresh valid record is returned with the
filesystem untouched. -/
def getCachedDetails (fs : MonacoFs) (now : Int) :
    Option (String × String × String) × MonacoFs :=
  match fs.details with
  | none => (none, removeLoaderJs fs)
  | some .unparsable => (none, removeLoaderJs fs)
  | some (.parsed d) =>
    match d.lastCheck with
    | none => (none, removeLoaderJs fs)
    | some lc =>
      if truthy d.version && truthy d.url && truthy d.shaSum then
        if now - lc < oneDay then
          (some (d.version.getD "", d.url.getD "", d.shaSum.getD ""), fs)
        else (none, removeLoaderJs fs)
      else (none, removeLoaderJs fs)

/-- The version `_get_package_details` fetches: `dist-tags.latest`, unless a
truthy pinned version occurs among the `versions` keys. -/
def registryTarget (data : RegistryData) : String :=
  match PINNED_VERSION with
  | some p =>
    if (!(p == "")) && (data.versions.lookup p).isSome then p else data.latest
  | none => data.latest

/-- The registry fetch inside `_get_package_details`: decode the response,
pick the target version, and read that entry's tarball URL and shasum (a
missing key raising `KeyError`). -/
def fetchRegistry (fs : MonacoFs) (env : MonacoEnv) :
    Except String (String × String × String) × MonacoFs × List NetEvent :=
  match env.registry with
  | none => (.error "registry request failed", fs, [.registryFetch])
  | some data =>
    match data.versions.lookup (registryTarget data) with
    | none => (.error "KeyError", fs, [.registryFetch])
    | some dist =>
      (.ok (registryTarget data, dist.tarball, dist.shasum), fs, [.registryFetch])

/-- `_get_package_details`: reuse a cached record when the pinned version is
unset or matches it; otherwise query the registry. -/
def getPackageDetails (fs : MonacoFs) (env : MonacoEnv) :
    Except String (String × String × String) × MonacoFs × List NetEvent :=
  match getCachedDetails fs env.now with
  | (some (v, u, s), fs1) =>
    if !pinnedTruthy || (PINNED_VERSION == some v)
    then (.ok (v, u, s), fs1, [])
    else fetchRegistry fs1 env
  | (none, fs1) => fetchRegistry fs1 env

/-- `_download_monaco_editor`: download, compare the SHA-1 of the bytes with
the registry-declared checksum before extracting anything (`ValueError` on
mismatch), fail when `package/min/vs` is absent from the archive
(`FileNotFoundError`), otherwise replace the served `vs/` (and, when the
archive has one, `min-maps/`) with the archive content.  Until the copy
steps, the served directories are untouched. -/
def downloadMonacoEditor (details : String × String × String) (fs : MonacoFs)
    (env : MonacoEnv) : Except String Unit × MonacoFs × List NetEvent :=
  match env.download with
  | none => (.error "download failed", fs, [.tarballDownload])
  | some t =>
    if !(t.shaSum == details.2.2) then
      (.error "SHA-1 sum mismatch.", fs, [.tarballDownload])
    else
      match t.pkgMinVs with
      | none => (.error "Failed to extract monaco editor files.", fs, [.tarballDownload])
      | some vsNew =>
        let fs1 := { fs with vs := some vsNew }
        let fs2 :=
          match t.minMaps with
          | some m => { fs1 with minMaps := some m }
          | none => fs1
        (.ok (), fs2, [.tarballDownload])

/-- The final `json.dump` of `ensure_extra_static_files`: rewrite
`monaco_details.json` with the resolved details and a fresh `last_check`. -/
def writeDetails (fs : MonacoFs) (now : Int) (v u s : String) : MonacoFs :=
  { fs with details := some (.parsed ⟨some now, some v, some u, some s⟩) }

/-- `ensure_extra_static_files`: obtain the package details (any failure
becoming the fatal `RuntimeError`), download when `vs/loader.js` is absent
(any failure becoming the fatal `RuntimeError`), fail when the loader is
still absent, and finally rewrite `monaco_details.json` with a fresh
`last_check`. -/
def ensureExtraStaticFiles (fs : MonacoFs) (env : MonacoEnv) :
    Except String Unit × MonacoFs × List NetEvent :=
  match getPackageDetails fs env with
  | (.error _, fs1, tr1) =>
    (.error "Failed to get the latest version of monaco.", fs1, tr1)
  | (.ok (v, u, s), fs1, tr1) =>
    if loaderExists fs1 then (.ok (), writeDetails fs1 env.now v u s, tr1)
    else
      match downloadMonacoEditor (v, u, s) fs1 env with
      | (.error _, fs2, tr2) =>
        (.error "Failed to download monaco editor files.", fs2, tr1 ++ tr2)
      | (.ok (), fs2, tr2) =>
        if loaderExists fs2 then (.ok (), writeDetails fs2 env.now v u s, tr1 ++ tr2)
        else (.error "Failed to download monaco editor files.", fs2, tr1 ++ tr2)

end Waldiez

namespace Waldiez

/-! ## Lemmas about the provisioning run -/

/-- Removing `loader.js` does not touch `min-maps/`. -/
theorem removeLoaderJs_minMaps (fs : MonacoFs) :
    (removeLoaderJs fs).minMaps = fs.minMaps := by
  rcases hv : fs.vs with _ | c <;> simp [removeLoaderJs, hv]

/-- Removing `loader.js` does not touch the cache file. -/
theorem removeLoaderJs_details (fs : MonacoFs) :
    (removeLoaderJs fs).details = fs.details := by
  rcases hv : fs.vs with _ | c <;> simp [removeLoaderJs, hv]

/-- Removing `loader.js` keeps the rest of the `vs/` content. -/
theorem removeLoaderJs_rest (fs : MonacoFs) :
    Option.map VsContent.rest (removeLoaderJs fs).vs =
      Option.map VsContent.rest fs.vs := by
  rcases hv : fs.vs with _ | c <;> simp [removeLoaderJs, hv]

/-- After `_remove_loader_js` the loader is gone. -/
theorem loaderExists_removeLoaderJs (fs : MonacoFs) :
    loaderExists (removeLoaderJs fs) = false := by
  rcases hv : fs.vs with _ | c <;> simp [removeLoaderJs, loaderExists, hv]

/-- A rejected cache leaves behind exactly `removeLoaderJs`. -/
theorem getCachedDetails_none (fs : MonacoFs) (now : Int)
    (h : (getCachedDetails fs now).1 = none) :
    (getCachedDetails fs now).2 = removeLoaderJs fs := by
  unfold getCachedDetails at h ⊢
  rcases hd : fs.details with _ | df
  · simp [hd]
  · cases df with
    | unparsable => simp [hd]
    | parsed d =>
      rcases hlc : d.lastCheck with _ | lc
      · simp [hd, hlc]
      · by_cases ht : (truthy d.version && truthy d.url && truthy d.shaSum) = true
        · by_cases hf : now - lc < oneDay
          · rw [hd] at h
            simp [hlc, ht, hf] at h
          · simp [hd, hlc, ht, hf]
        · simp [hd, hlc, ht]

/-- An accepted cache leaves the filesystem untouched. -/
theorem getCachedDetails_some (fs : MonacoFs) (now : Int)
    (x : String × String × String)
    (h : (getCachedDetails fs now).1 = some x) :
    (getCachedDetails fs now).2 = fs := by
  unfold getCachedDetails at h ⊢
  rcases hd : fs.details with _ | df
  · rw [hd] at h; simp at h
  · cases df with
    | unparsable => rw [hd] at h; simp at h
    | parsed d =>
      rcases hlc : d.lastCheck with _ | lc
      · rw [hd] at h; simp [hlc] at h
      · by_cases ht : (truthy d.version && truthy d.url && truthy d.shaSum) = true
        · by_cases hf : now - lc < oneDay
          · simp [hd, hlc, ht, hf]
          · rw [hd] at h; simp [hlc, ht, hf] at h
        · rw [hd] at h; simp [hlc, ht] at h

/-- The registry fetch never writes to the filesystem. -/
theorem fetchRegistry_fs (fs : MonacoFs) (env : MonacoEnv) :
    (fetchRegistry fs env).2.1 = fs := by
  unfold fetchRegistry
  cases env.registry with
  | none => rfl
  | some data => split <;> first | rfl | (split <;> rfl)

/-- The registry fetch performs exactly one network request. -/
theorem fetchRegistry_trace (fs : MonacoFs) (env : MonacoEnv) :
    (fetchRegistry fs env).2.2 = [NetEvent.registryFetch] := by
  unfold fetchRegistry
  cases env.registry with
  | none => rfl
  | some data => split <;> first | rfl | (split <;> rfl)

/-- `_get_package_details` leaves the filesystem as found or with only
`loader.js` removed. -/
theorem getPackageDetails_fs_cases (fs : MonacoFs) (env : MonacoEnv) :
    (getPackageDetails fs env).2.1 = fs
    ∨ (getPackageDetails fs env).2.1 = removeLoaderJs fs := by
  unfold getPackageDetails
  rcases hc : getCachedDetails fs env.now with ⟨c, fs1⟩
  rcases c with _ | x
  · right
    have h1 : fs1 = removeLoaderJs fs := by
      have := getCachedDetails_none fs env.now (by rw [hc])
      rw [hc] at this
      exact this
    subst h1
    exact fetchRegistry_fs (removeLoaderJs fs) env
  · have h1 : fs1 = fs := by
      have := getCachedDetails_some fs env.now x (by rw [hc])
      rw [hc] at this
      exact this
    subst h1
    rcases x with ⟨v, u, s⟩
    by_cases hp : (!pinnedTruthy || (PINNED_VERSION == some v)) = true
    · left; simp [hp]
    · left
      simp only [hp, Bool.false_eq_true, if_false]
      exact fetchRegistry_fs fs1 env

/-- `_get_package_details` issues at most the registry request. -/
theorem getPackageDetails_trace (fs : MonacoFs) (env : MonacoEnv) :
    (getPackageDetails fs env).2.2 = []
    ∨ (getPackageDetails fs env).2.2 = [NetEvent.registryFetch] := by
  unfold getPackageDetails
  rcases hc : getCachedDetails fs env.now with ⟨c, fs1⟩
  rcases c with _ | x
  · exact Or.inr (fetchRegistry_trace fs1 env)
  · rcases x with ⟨v, u, s⟩
    by_cases hp : (!pinnedTruthy || (PINNED_VERSION == some v)) = true
    · left; simp [hp]
    · simp only [hp, Bool.false_eq_true, if_false]
      exact Or.inr (fetchRegistry_trace fs1 env)

/-- The download routine performs exactly one network request. -/
theorem download_trace (d : String × String × String) (fs : MonacoFs)
    (env : MonacoEnv) :
    (downloadMonacoEditor d fs env).2.2 = [NetEvent.tarballDownload] := by
  unfold downloadMonacoEditor
  rcases hd : env.download with _ | t
  · rfl
  · by_cases hs : (!(t.shaSum == d.2.2)) = true
    · simp [hs]
    · rcases hv : t.pkgMinVs with _ | c
      · simp [hs, hv]
      · rcases hm : t.minMaps with _ | m <;> simp [hs, hv, hm]

end Waldiez

namespace Waldiez

/-- A cache miss sends `_get_package_details` to the registry on the
loader-stripped filesystem. -/
theorem getPackageDetails_miss (fs : MonacoFs) (env : MonacoEnv)
    (h : (getCachedDetails fs env.now).1 = none) :
    getPackageDetails fs env = fetchRegistry (removeLoaderJs fs) env := by
  have h2 := getCachedDetails_none fs env.now h
  unfold getPackageDetails
  rcases hc : getCachedDetails fs env.now with ⟨c, fs1⟩
  rw [hc] at h h2
  simp only at h h2
  subst h
  subst h2
  rfl

/-- `_get_package_details` can change the filesystem at most by removing
`loader.js`. -/
theorem getPackageDetails_preserves (fs : MonacoFs) (env : MonacoEnv)
    (r : Except String (String × String × String)) (fs1 : MonacoFs)
    (tr1 : List NetEvent) (hg : getPackageDetails fs env = (r, fs1, tr1)) :
    Option.map VsContent.rest fs1.vs = Option.map VsContent.rest fs.vs
    ∧ fs1.minMaps = fs.minMaps ∧ fs1.details = fs.details := by
  have h := getPackageDetails_fs_cases fs env
  rw [hg] at h
  simp only at h
  rcases h with h | h <;> rw [h]
  · exact ⟨rfl, rfl, rfl⟩
  · exact ⟨removeLoaderJs_rest fs, removeLoaderJs_minMaps fs,
      removeLoaderJs_details fs⟩

/-- The trace of a provisioning run is at most one registry request followed
by at most one download request. -/
theorem ensure_trace_cases (fs : MonacoFs) (env : MonacoEnv) :
    ∃ a b, (ensureExtraStaticFiles fs env).2.2 = a ++ b
      ∧ (a = [] ∨ a = [NetEvent.registryFetch])
      ∧ (b = [] ∨ b = [NetEvent.tarballDownload]) := by
  unfold ensureExtraStaticFiles
  rcases hg : getPackageDetails fs env with ⟨r, fs1, tr1⟩
  have htr1 : tr1 = [] ∨ tr1 = [NetEvent.registryFetch] := by
    have := getPackageDetails_trace fs env
    rw [hg] at this
    exact this
  cases r with
  | error e => exact ⟨tr1, [], by simp, htr1, Or.inl rfl⟩
  | ok d =>
    rcases d with ⟨v, u, s⟩
    by_cases hl : loaderExists fs1 = true
    · exact ⟨tr1, [], by simp [hl], htr1, Or.inl rfl⟩
    · rcases hdl : downloadMonacoEditor (v, u, s) fs1 env with ⟨res, fs2, tr2⟩
      have htr2 : tr2 = [NetEvent.tarballDownload] := by
        have := download_trace (v, u, s) fs1 env
        rw [hdl] at this
        exact this
      refine ⟨tr1, tr2, ?_, htr1, Or.inr htr2⟩
      cases res with
      | error e => simp [hl, hdl]
      | ok uu =>
        by_cases hl2 : loaderExists fs2 = true <;> simp [hl, hdl, hl2]

/-- A successful run always ends by rewriting `monaco_details.json` with a
fresh `last_check`. -/
theorem ensure_ok_writes_details (fs : MonacoFs) (env : MonacoEnv)
    (h : (ensureExtraStaticFiles fs env).1 = .ok ()) :
    ∃ v u s, (ensureExtraStaticFiles fs env).2.1.details =
      some (.parsed ⟨some env.now, some v, some u, some s⟩) := by
  unfold ensureExtraStaticFiles at h ⊢
  rcases hg : getPackageDetails fs env with ⟨r, fs1, tr1⟩
  rw [hg] at h
  cases r with
  | error e => exact Except.noConfusion h
  | ok d =>
    rcases d with ⟨v, u, s⟩
    by_cases hl : loaderExists fs1 = true
    · exact ⟨v, u, s, by simp [hl, writeDetails]⟩
    · simp only [hl, Bool.false_eq_true, if_false] at h ⊢
      rcases hdl : downloadMonacoEditor (v, u, s) fs1 env with ⟨res, fs2, tr2⟩
      rw [hdl] at h
      cases res with
      | error e => exact Except.noConfusion h
      | ok uu =>
        cases uu
        by_cases hl2 : loaderExists fs2 = true
        · exact ⟨v, u, s, by simp [hl2, writeDetails]⟩
        · simp [hl2] at h

end Waldiez

namespace Waldiez

/-! ## Theorems: claims C1, C2 and C10 -/

/-- C1 counterexample: with a stale-but-well-formed cache record and a served
`vs/` still holding `loader.js`, a run that then hits a checksum mismatch
raises the fatal error without extracting or moving anything, yet the served
`vs/` directory is not left unchanged: the cache-staleness check already
deleted `vs/loader.js`. -/
theorem ensure_mismatch_vs_changed_cex :
    (ensureExtraStaticFiles
        ⟨some ⟨true, 7⟩, none,
          some (.parsed ⟨some 0, some "0.55.1", some "u", some "aaa"⟩)⟩
        ⟨200000, some ⟨"0.55.1", [("0.55.1", ⟨"turl", "aaa"⟩)]⟩,
          some ⟨"bbb", some ⟨true, 9⟩, none⟩⟩).1 =
      .error "Failed to download monaco editor files."
    ∧ (ensureExtraStaticFiles
        ⟨some ⟨true, 7⟩, none,
          some (.parsed ⟨some 0, some "0.55.1", some "u", some "aaa"⟩)⟩
        ⟨200000, some ⟨"0.55.1", [("0.55.1", ⟨"turl", "aaa"⟩)]⟩,
          some ⟨"bbb", some ⟨true, 9⟩, none⟩⟩).2.1.vs = some ⟨false, 7⟩
    ∧ (ensureExtraStaticFiles
        ⟨some ⟨true, 7⟩, none,
          some (.parsed ⟨some 0, some "0.55.1", some "u", some "aaa"⟩)⟩
        ⟨200000, some ⟨"0.55.1", [("0.55.1", ⟨"turl", "aaa"⟩)]⟩,
          some ⟨"bbb", some ⟨true, 9⟩, none⟩⟩).2.1.vs ≠ some ⟨true, 7⟩ := by
  refine ⟨rfl, rfl, by decide⟩

/-- C1 (amended): every failure of a provisioning run — registry unreachable
or undecodable, download failed, SHA-1 checksum mismatch, expected archive
contents missing (whether the `package/min/vs` member is absent or the
extracted content lacks `loader.js`) — surfaces as the fatal error, and no
network request is retried; on a checksum mismatch the error is raised before
any extraction or directory move, so the filesystem stays exactly as it was
after the cache check, whose only possible change is the prior deletion of
`vs/loader.js`. -/
theorem ensure_failures_fatal :
    (∀ fs env e fs1 tr1, getPackageDetails fs env = (.error e, fs1, tr1) →
      ensureExtraStaticFiles fs env =
        (.error "Failed to get the latest version of monaco.", fs1, tr1))
    ∧ (∀ fs env v u s fs1 tr1, getPackageDetails fs env = (.ok (v, u, s), fs1, tr1) →
      loaderExists fs1 = false → env.download = none →
      (ensureExtraStaticFiles fs env).1 =
        .error "Failed to download monaco editor files.")
    ∧ (∀ fs env v u s fs1 tr1 t, getPackageDetails fs env = (.ok (v, u, s), fs1, tr1) →
      loaderExists fs1 = false → env.download = some t → (t.shaSum == s) = false →
      ensureExtraStaticFiles fs env =
        (.error "Failed to download monaco editor files.", fs1,
          tr1 ++ [NetEvent.tarballDownload])
      ∧ Option.map VsContent.rest fs1.vs = Option.map VsContent.rest fs.vs
      ∧ fs1.minMaps = fs.minMaps ∧ fs1.details = fs.details)
    ∧ (∀ fs env v u s fs1 tr1 t, getPackageDetails fs env = (.ok (v, u, s), fs1, tr1) →
      loaderExists fs1 = false → env.download = some t → (t.shaSum == s) = true →
      t.pkgMinVs = none →
      (ensureExtraStaticFiles fs env).1 =
        .error "Failed to download monaco editor files.")
    ∧ (∀ fs env v u s fs1 tr1 t c, getPackageDetails fs env = (.ok (v, u, s), fs1, tr1) →
      loaderExists fs1 = false → env.download = some t → (t.shaSum == s) = true →
      t.pkgMinVs = some c → c.hasLoader = false →
      (ensureExtraStaticFiles fs env).1 =
        .error "Failed to download monaco editor files.")
    ∧ (∀ fs env,
      ((ensureExtraStaticFiles fs env).2.2).count NetEvent.registryFetch ≤ 1
      ∧ ((ensureExtraStaticFiles fs env).2.2).count NetEvent.tarballDownload ≤ 1) := by
  refine ⟨?_, ?_, ?_, ?_, ?_, ?_⟩
  · intro fs env e fs1 tr1 hg
    unfold ensureExtraStaticFiles
    rw [hg]
  · intro fs env v u s fs1 tr1 hg hl hdw
    unfold ensureExtraStaticFiles
    rw [hg]
    simp only [hl, Bool.false_eq_true, if_false]
    unfold downloadMonacoEditor
    rw [hdw]
  · intro fs env v u s fs1 tr1 t hg hl hdw hsha
    have hp := getPackageDetails_preserves fs env _ fs1 tr1 hg
    refine ⟨?_, hp.1, hp.2.1, hp.2.2⟩
    unfold ensureExtraStaticFiles
    rw [hg]
    simp only [hl, Bool.false_eq_true, if_false]
    unfold downloadMonacoEditor
    rw [hdw]
    simp [hsha]
  · intro fs env v u s fs1 tr1 t hg hl hdw hsha hvs
    unfold ensureExtraStaticFiles
    rw [hg]
    simp only [hl, Bool.false_eq_true, if_false]
    unfold downloadMonacoEditor
    rw [hdw]
    simp [hsha, hvs]
  · intro fs env v u s fs1 tr1 t c hg hl hdw hsha hvs hcl
    unfold ensureExtraStaticFiles
    rw [hg]
    simp only [hl, Bool.false_eq_true, if_false]
    unfold downloadMonacoEditor
    rw [hdw]
    rcases hm : t.minMaps with _ | m <;>
      simp [hsha, hvs, hm, loaderExists, hcl]
  · intro fs env
    rcases ensure_trace_cases fs env with ⟨a, b, he, ha, hb⟩
    rw [he]
    constructor <;> rw [List.count_append] <;>
      rcases ha with h1 | h1 <;> rcases hb with h2 | h2 <;>
      subst h1 <;> subst h2 <;> decide

/-- Witness for `ensure_failures_fatal`: a fresh pinned cache with no served
loader and a download hashing to the wrong value fails fatally with the
served directories untouched; and a matching download whose extracted `vs`
content lacks `loader.js` also fails fatally. -/
theorem ensure_failures_fatal_witness :
    ensureExtraStaticFiles
        ⟨none, none, some (.parsed ⟨some 0, some "0.55.1", some "u", some "aaa"⟩)⟩
        ⟨10, none, some ⟨"bbb", some ⟨true, 1⟩, none⟩⟩ =
      (.error "Failed to download monaco editor files.",
        ⟨none, none, some (.parsed ⟨some 0, some "0.55.1", some "u", some "aaa"⟩)⟩,
        [NetEvent.tarballDownload])
    ∧ (ensureExtraStaticFiles
        ⟨none, none, some (.parsed ⟨some 0, some "0.55.1", some "u", some "aaa"⟩)⟩
        ⟨10, none, some ⟨"aaa", some ⟨false, 2⟩, none⟩⟩).1 =
      .error "Failed to download monaco editor files." := by
  constructor
  · have h := (ensure_failures_fatal.2.2.1
        ⟨none, none, some (.parsed ⟨some 0, some "0.55.1", some "u", some "aaa"⟩)⟩
        ⟨10, none, some ⟨"bbb", some ⟨true, 1⟩, none⟩⟩
        "0.55.1" "u" "aaa"
        ⟨none, none, some (.parsed ⟨some 0, some "0.55.1", some "u", some "aaa"⟩)⟩
        [] ⟨"bbb", some ⟨true, 1⟩, none⟩ rfl rfl rfl (by decide)).1
    simpa using h
  · exact ensure_failures_fatal.2.2.2.2.1
        ⟨none, none, some (.parsed ⟨some 0, some "0.55.1", some "u", some "aaa"⟩)⟩
        ⟨10, none, some ⟨"aaa", some ⟨false, 2⟩, none⟩⟩
        "0.55.1" "u" "aaa"
        ⟨none, none, some (.parsed ⟨some 0, some "0.55.1", some "u", some "aaa"⟩)⟩
        [] ⟨"aaa", some ⟨false, 2⟩, none⟩ ⟨false, 2⟩ rfl rfl rfl (by decide) rfl rfl

/-- C2 counterexample: (1) a fresh, fully valid cache record whose version is
not the pinned one triggers a registry request; (2) an expired record with
the registry unreachable leaves the cache file unrewritten (stale timestamp
kept) and fails; (3) a fresh pinned record with `vs/loader.js` missing
triggers a tarball download. -/
theorem cache_fresh_network_cex :
    (ensureExtraStaticFiles
        ⟨some ⟨true, 0⟩, none,
          some (.parsed ⟨some 0, some "0.53.0", some "u", some "s"⟩)⟩
        ⟨100, some ⟨"0.55.1", [("0.55.1", ⟨"turl", "tsha"⟩)]⟩,
          some ⟨"tsha", some ⟨true, 1⟩, none⟩⟩).2.2 = [NetEvent.registryFetch]
    ∧ (ensureExtraStaticFiles
        ⟨some ⟨true, 0⟩, none,
          some (.parsed ⟨some 0, some "0.55.1", some "u", some "s"⟩)⟩
        ⟨200000, none, none⟩).1 = .error "Failed to get the latest version of monaco."
    ∧ (ensureExtraStaticFiles
        ⟨some ⟨true, 0⟩, none,
          some (.parsed ⟨some 0, some "0.55.1", some "u", some "s"⟩)⟩
        ⟨200000, none, none⟩).2.1.details =
      some (.parsed ⟨some 0, some "0.55.1", some "u", some "s"⟩)
    ∧ (ensureExtraStaticFiles
        ⟨none, none, some (.parsed ⟨some 0, some "0.55.1", some "u", some "aaa"⟩)⟩
        ⟨10, none, some ⟨"aaa", some ⟨true, 1⟩, none⟩⟩).2.2 =
      [NetEvent.tarballDownload] := by
  refine ⟨rfl, rfl, rfl, rfl⟩

/-- C2 (amended): a fresh (less than 24 hours old) valid cache record whose
version matches the pinned version, with the served loader present, makes the
run succeed with no network request (only the cache file timestamp is
rewritten); an expired or otherwise rejected record triggers the registry
request, and when the run succeeds the cache file carries the new
`last_check`. -/
theorem cache_fresh_pinned_no_network :
    (∀ fs env d lc v u s,
      fs.details = some (.parsed d) → d.lastCheck = some lc →
      d.version = some v → d.url = some u → d.shaSum = some s →
      v ≠ "" → u ≠ "" → s ≠ "" → env.now - lc < oneDay →
      PINNED_VERSION = some v → loaderExists fs = true →
      ensureExtraStaticFiles fs env = (.ok (), writeDetails fs env.now v u s, []))
    ∧ (∀ fs env, (getCachedDetails fs env.now).1 = none →
      NetEvent.registryFetch ∈ (ensureExtraStaticFiles fs env).2.2
      ∧ ((ensureExtraStaticFiles fs env).1 = .ok () →
        ∃ v u s, (ensureExtraStaticFiles fs env).2.1.details =
          some (.parsed ⟨some env.now, some v, some u, some s⟩))) := by
  constructor
  · intro fs env d lc v u s hdet hlc hv hu hs hvne hune hsne hfresh hpin hload
    have hcd : getCachedDetails fs env.now = (some (v, u, s), fs) := by
      unfold getCachedDetails
      rw [hdet]
      simp [hlc, hv, hu, hs, truthy, hvne, hune, hsne, hfresh]
    unfold ensureExtraStaticFiles getPackageDetails
    rw [hcd]
    simp [hpin, hload]
  · intro fs env h
    have hmiss := getPackageDetails_miss fs env h
    constructor
    · unfold ensureExtraStaticFiles
      rw [hmiss]
      rcases hr : fetchRegistry (removeLoaderJs fs) env with ⟨r, fsr, trr⟩
      have htr : trr = [NetEvent.registryFetch] := by
        have := fetchRegistry_trace (removeLoaderJs fs) env
        rw [hr] at this
        exact this
      subst htr
      cases r with
      | error e => simp
      | ok d =>
        rcases d with ⟨v, u, s⟩
        by_cases hl : loaderExists fsr = true
        · simp [hl]
        · simp only [hl, Bool.false_eq_true, if_false]
          rcases hdl : downloadMonacoEditor (v, u, s) fsr env with ⟨res, fs2, tr2⟩
          cases res with
          | error e => simp
          | ok uu =>
            cases uu
            by_cases hl2 : loaderExists fs2 = true <;> simp [hl2]
    · intro hok
      exact ensure_ok_writes_details fs env hok

/-- Witness for `cache_fresh_pinned_no_network`: a fresh pinned cache with
the loader present is reused with an empty network trace, and a missing cache
file triggers the registry request. -/
theorem cache_fresh_pinned_no_network_witness :
    ensureExtraStaticFiles
        ⟨some ⟨true, 3⟩, none,
          some (.parsed ⟨some 0, some "0.55.1", some "u", some "s"⟩)⟩
        ⟨10, none, none⟩ =
      (.ok (),
        writeDetails
          ⟨some ⟨true, 3⟩, none,
            some (.parsed ⟨some 0, some "0.55.1", some "u", some "s"⟩)⟩
          10 "0.55.1" "u" "s", [])
    ∧ NetEvent.registryFetch ∈
      (ensureExtraStaticFiles ⟨some ⟨true, 3⟩, none, none⟩ ⟨10, none, none⟩).2.2 := by
  constructor
  · exact cache_fresh_pinned_no_network.1
      ⟨some ⟨true, 3⟩, none,
        some (.parsed ⟨some 0, some "0.55.1", some "u", some "s"⟩)⟩
      ⟨10, none, none⟩ ⟨some 0, some "0.55.1", some "u", some "s"⟩ 0
      "0.55.1" "u" "s" rfl rfl rfl rfl rfl (by decide) (by decide) (by decide)
      (by decide) rfl rfl
  · exact (cache_fresh_pinned_no_network.2
      ⟨some ⟨true, 3⟩, none, none⟩ ⟨10, none, none⟩ rfl).1

/-- C10: `_get_cached_details` answers `None` on a missing cache file, an
unparsable one, an unparsable `last_check`, a falsy field, or a record a day
or older; every such rejection leaves the filesystem with `vs/loader.js`
deleted, and consequently a cache miss can only succeed by downloading the
editor assets again. -/
theorem cache_miss_removes_loader :
    (∀ fs : MonacoFs, ∀ now : Int, fs.details = none →
      (getCachedDetails fs now).1 = none)
    ∧ (∀ fs : MonacoFs, ∀ now : Int, fs.details = some .unparsable →
      (getCachedDetails fs now).1 = none)
    ∧ (∀ fs : MonacoFs, ∀ now : Int, ∀ d : DetailsData,
      fs.details = some (.parsed d) → d.lastCheck = none →
      (getCachedDetails fs now).1 = none)
    ∧ (∀ fs : MonacoFs, ∀ now : Int, ∀ d : DetailsData,
      fs.details = some (.parsed d) →
      (truthy d.version && truthy d.url && truthy d.shaSum) = false →
      (getCachedDetails fs now).1 = none)
    ∧ (∀ fs : MonacoFs, ∀ now : Int, ∀ d : DetailsData, ∀ lc : Int,
      fs.details = some (.parsed d) → d.lastCheck = some lc →
      oneDay ≤ now - lc → (getCachedDetails fs now).1 = none)
    ∧ (∀ fs : MonacoFs, ∀ now : Int, (getCachedDetails fs now).1 = none →
      (getCachedDetails fs now).2 = removeLoaderJs fs
      ∧ loaderExists (getCachedDetails fs now).2 = false)
    ∧ (∀ fs : MonacoFs, ∀ env : MonacoEnv,
      (getCachedDetails fs env.now).1 = none →
      (ensureExtraStaticFiles fs env).1 = .ok () →
      NetEvent.tarballDownload ∈ (ensureExtraStaticFiles fs env).2.2) := by
  refine ⟨?_, ?_, ?_, ?_, ?_, ?_, ?_⟩
  · intro fs now h
    unfold getCachedDetails
    rw [h]
  · intro fs now h
    unfold getCachedDetails
    rw [h]
  · intro fs now d hdet hlc
    unfold getCachedDetails
    rw [hdet]
    simp [hlc]
  · intro fs now d hdet hfalsy
    unfold getCachedDetails
    rw [hdet]
    rcases hlc : d.lastCheck with _ | lc <;> simp [hlc, hfalsy]
  · intro fs now d lc hdet hlc hstale
    have hnf : ¬ (now - lc < oneDay) := not_lt.mpr hstale
    unfold getCachedDetails
    rw [hdet]
    by_cases ht : (truthy d.version && truthy d.url && truthy d.shaSum) = true <;>
      simp [hlc, ht, hnf]
  · intro fs now h
    refine ⟨getCachedDetails_none fs now h, ?_⟩
    rw [getCachedDetails_none fs now h]
    exact loaderExists_removeLoaderJs fs
  · intro fs env h hok
    have hmiss := getPackageDetails_miss fs env h
    unfold ensureExtraStaticFiles at hok ⊢
    rw [hmiss] at hok ⊢
    rcases hr : fetchRegistry (removeLoaderJs fs) env with ⟨r, fsr, trr⟩
    rw [hr] at hok
    have hfsr : fsr = removeLoaderJs fs := by
      have := fetchRegistry_fs (removeLoaderJs fs) env
      rw [hr] at this
      exact this
    cases r with
    | error e => exact Except.noConfusion hok
    | ok d =>
      rcases d with ⟨v, u, s⟩
      have hlf : loaderExists fsr = false := by
        rw [hfsr]
        exact loaderExists_removeLoaderJs fs
      simp only [hlf, Bool.false_eq_true, if_false] at hok ⊢
      rcases hdl : downloadMonacoEditor (v, u, s) fsr env with ⟨res, fs2, tr2⟩
      rw [hdl] at hok
      have htr2 : tr2 = [NetEvent.tarballDownload] := by
        have := download_trace (v, u, s) fsr env
        rw [hdl] at this
        exact this
      cases res with
      | error e => exact Except.noConfusion hok
      | ok uu =>
        cases uu
        by_cases hl2 : loaderExists fs2 = true
        · subst htr2
          simp [hl2]
        · simp [hl2] at hok

/-- Witness for `cache_miss_removes_loader`: a present loader with a missing
cache file is deleted by the rejection path, and a subsequently successful
run re-downloaded the assets. -/
theorem cache_miss_removes_loader_witness :
    (getCachedDetails ⟨some ⟨true, 5⟩, none, none⟩ 0).2 =
      removeLoaderJs ⟨some ⟨true, 5⟩, none, none⟩
    ∧ NetEvent.tarballDownload ∈
      (ensureExtraStaticFiles ⟨some ⟨true, 5⟩, none, none⟩
        ⟨0, some ⟨"0.55.1", [("0.55.1", ⟨"t", "x"⟩)]⟩,
          some ⟨"x", some ⟨true, 1⟩, none⟩⟩).2.2 := by
  constructor
  · exact ((cache_miss_removes_loader.2.2.2.2.2.1)
      ⟨some ⟨true, 5⟩, none, none⟩ 0 rfl).1
  · exact (cache_miss_removes_loader.2.2.2.2.2.2)
      ⟨some ⟨true, 5⟩, none, none⟩
      ⟨0, some ⟨"0.55.1", [("0.55.1", ⟨"t", "x"⟩)]⟩,
        some ⟨"x", some ⟨true, 1⟩, none⟩⟩ rfl rfl

end Waldiez
